import Mathlib

/-!
Shallow embedding of the fourten HTTP client (src/fourten.go) together with
the standard-library helpers it delegates to (strings.ReplaceAll,
url.PathEscape, url.Values.Encode, net/http header handling), and proofs of
the specification claims about it.  Machine strings are modelled as Lean
strings, byte streams as lists of naturals, and the network as an oracle
function supplied to the call pipeline.
-/

namespace Fourten

/-! ## Byte and string helpers (models of Go standard library functions) -/

/-- Bytes of a body or an escaped string, each in the range 0..255. -/
abbrev Bytes := List Nat

/-- Fuel-indexed worker for replaceAll: each step consumes at least one
character of s and one unit of fuel, so fuel equal to the length of s is
always enough and the fuel-exhausted branch is unreachable from
replaceAll. -/
def replaceAllFuel (pat rep : List Char) : Nat → List Char → List Char
  | 0, s => s
  | _, [] => []
  | fuel + 1, c :: rest =>
    if pat ≠ [] ∧ pat.isPrefixOf (c :: rest) then
      rep ++ replaceAllFuel pat rep fuel ((c :: rest).drop pat.length)
    else
      c :: replaceAllFuel pat rep fuel rest

/-- Model of strings.ReplaceAll on character lists: replace every
non-overlapping occurrence of pat (scanned left to right) by rep. -/
def replaceAll (s pat rep : List Char) : List Char :=
  replaceAllFuel pat rep s.length s

/-- Model of strings.Contains restricted to what the proofs need: does pat
occur as a contiguous run inside s. -/
def containsPat (pat : List Char) : List Char → Bool
  | [] => pat.isEmpty
  | c :: rest => pat.isPrefixOf (c :: rest) || containsPat pat rest

/-- String-level wrapper for replaceAll, the model of strings.ReplaceAll. -/
def stringReplaceAll (s pat rep : String) : String :=
  ⟨replaceAll s.data pat.data rep.data⟩

/-- String-level occurrence test. -/
def containsStr (pat s : String) : Bool :=
  containsPat pat.data s.data

/-- Model of strings.HasPrefix. -/
def hasPrefix (pat s : String) : Bool :=
  pat.data.isPrefixOf s.data

/-- If pat does not occur in s then the worker leaves s unchanged at any
fuel. -/
theorem replaceAllFuel_of_not_contains (pat rep : List Char) :
    ∀ (fuel : Nat) (s : List Char), containsPat pat s = false →
    replaceAllFuel pat rep fuel s = s := by
  intro fuel
  induction fuel with
  | zero => intro s _; cases s <;> rfl
  | succ f ih =>
    intro s h
    cases s with
    | nil => rfl
    | cons c rest =>
      simp only [containsPat, Bool.or_eq_false_iff] at h
      have hnp : ¬(pat ≠ [] ∧ pat.isPrefixOf (c :: rest)) := by
        intro ⟨_, hp⟩
        rw [h.1] at hp
        exact absurd hp (by simp)
      show (if pat ≠ [] ∧ pat.isPrefixOf (c :: rest) then
          rep ++ replaceAllFuel pat rep f ((c :: rest).drop pat.length)
        else c :: replaceAllFuel pat rep f rest) = c :: rest
      rw [if_neg hnp, ih rest h.2]

/-- If pat does not occur in s then replaceAll leaves s unchanged. -/
theorem replaceAll_of_not_contains (s pat rep : List Char)
    (h : containsPat pat s = false) : replaceAll s pat rep = s :=
  replaceAllFuel_of_not_contains pat rep s.length s h

/-! ## Percent escaping (model of net/url shouldEscape / PathEscape / QueryEscape) -/

/-- UTF-8 encoding of one character as a byte list, the byte-level view Go
strings expose. -/
def utf8EncodeCharNat (c : Char) : List Nat :=
  let n := c.toNat
  if n < 0x80 then [n]
  else if n < 0x800 then
    [0xC0 + n / 64, 0x80 + n % 64]
  else if n < 0x10000 then
    [0xE0 + n / 4096, 0x80 + (n / 64) % 64, 0x80 + n % 64]
  else
    [0xF0 + n / 262144, 0x80 + (n / 4096) % 64, 0x80 + (n / 64) % 64, 0x80 + n % 64]

/-- The bytes of a string, as Go sees it. -/
def utf8Bytes (s : String) : Bytes :=
  (s.data.map utf8EncodeCharNat).flatten

/-- Unreserved bytes of RFC 3986 section 2.3: alphanumerics and dash,
underscore, dot, tilde, never escaped in any mode. -/
def isUnreservedByte (b : Nat) : Bool :=
  (97 ≤ b && b ≤ 122) || (65 ≤ b && b ≤ 90) || (48 ≤ b && b ≤ 57) ||
  b == 45 || b == 95 || b == 46 || b == 126

/-- Reserved bytes of RFC 3986 section 2.2 as enumerated by net/url
shouldEscape: dollar, ampersand, plus, comma, slash, colon, semicolon,
equals, question mark, at sign. -/
def isReservedByte (b : Nat) : Bool :=
  b == 36 || b == 38 || b == 43 || b == 44 || b == 47 || b == 58 ||
  b == 59 || b == 61 || b == 63 || b == 64

/-- Model of net/url shouldEscape in mode encodePathSegment: reserved bytes
slash, semicolon, comma and question mark are escaped, the other reserved
bytes pass through, unreserved bytes pass through, everything else is
escaped. -/
def shouldEscapePathSegment (b : Nat) : Bool :=
  if isUnreservedByte b then false
  else if isReservedByte b then
    b == 47 || b == 59 || b == 44 || b == 63
  else true

/-- Model of net/url shouldEscape in mode encodeQueryComponent: every
reserved byte is escaped, unreserved bytes pass through, everything else is
escaped; the space is handled separately by the caller. -/
def shouldEscapeQueryComponent (b : Nat) : Bool :=
  if isUnreservedByte b then false else true

/-- Upper-case hexadecimal digit, as used by net/url escape. -/
def upperHexDigit (n : Nat) : Char :=
  ("0123456789ABCDEF".data.getD n '0')

/-- Percent-escape one byte. -/
def escapeByte (b : Nat) : List Char :=
  ['%', upperHexDigit (b / 16), upperHexDigit (b % 16)]

/-- Model of url.PathEscape: escape a string so it can be safely placed
inside a URL path segment. -/
def pathEscape (s : String) : String :=
  ⟨((utf8Bytes s).map fun b =>
      if shouldEscapePathSegment b then escapeByte b else [Char.ofNat b]).flatten⟩

/-- Model of url.QueryEscape: escape a string so it can be safely placed
inside a URL query; a space becomes a plus sign. -/
def queryEscape (s : String) : String :=
  ⟨((utf8Bytes s).map fun b =>
      if b == 32 then ['+']
      else if shouldEscapeQueryComponent b then escapeByte b else [Char.ofNat b]).flatten⟩

/-! ## Header model (net/http Header: case-insensitive keys via canonical form) -/

/-- A header set: association list from canonical keys to value lists,
modelling the http.Header map. -/
abbrev Header := List (String × List String)

/-- Is a byte a valid MIME header token byte, per net/textproto. -/
def validHeaderByte (b : Nat) : Bool :=
  (97 ≤ b && b ≤ 122) || (65 ≤ b && b ≤ 90) || (48 ≤ b && b ≤ 57) ||
  b == 33 || b == 35 || b == 36 || b == 37 || b == 38 || b == 39 ||
  b == 42 || b == 43 || b == 45 || b == 46 || b == 94 || b == 95 ||
  b == 96 || b == 124 || b == 126

/-- Case transform of one character given whether the previous character was
a dash (or this is the first character). -/
def canonicalChar (upper : Bool) (c : Char) : Char :=
  if upper then c.toUpper else c.toLower

/-- Helper for canonicalKey: walk the characters tracking whether the next
letter starts a dash-separated word. -/
def canonicalKeyAux : Bool → List Char → List Char
  | _, [] => []
  | upper, c :: rest =>
    canonicalChar upper c :: canonicalKeyAux (c == '-') rest

/-- Model of textproto.CanonicalMIMEHeaderKey: if every byte is a valid
token byte, upper-case the first letter and each letter after a dash and
lower-case the rest; otherwise return the key unchanged. -/
def canonicalKey (s : String) : String :=
  if (utf8Bytes s).all validHeaderByte then ⟨canonicalKeyAux true s.data⟩ else s

/-- Model of http.Header.Set: replace the entry for the canonical key with a
single value, appending a fresh entry if absent. -/
def headerSet (h : Header) (k v : String) : Header :=
  let ck := canonicalKey k
  if h.any (fun p => p.1 == ck) then
    h.map fun p => if p.1 == ck then (p.1, [v]) else p
  else
    h ++ [(ck, [v])]

/-- Model of http.Header.Del: remove the entry for the canonical key. -/
def headerDel (h : Header) (k : String) : Header :=
  let ck := canonicalKey k
  h.filter fun p => p.1 != ck

/-- Model of http.Header.Get: first value recorded under the canonical key,
or the empty string. -/
def headerGet (h : Header) (k : String) : String :=
  let ck := canonicalKey k
  match h.find? (fun p => p.1 == ck) with
  | some (_, v :: _) => v
  | _ => ""

/-- Model of the copyHeaders helper of src/fourten.go: every key of merge
overwrites the corresponding entry of base. -/
def copyHeaders (base merge : Header) : Header :=
  merge.foldl (fun acc p =>
    if acc.any (fun q => q.1 == p.1) then
      acc.map fun q => if q.1 == p.1 then p else q
    else acc ++ [p]) base

/-! ## URL model (the fields of net/url URL the client touches) -/

/-- The parts of a parsed URL the client reads or writes. -/
structure URL where
  scheme : String := ""
  host : String := ""
  path : String := ""
  rawQuery : String := ""
deriving DecidableEq, Repr

/-- Index just past the last slash of s, zero when there is none, modelling
the strings.LastIndex step of url resolvePath. -/
def uptoLastSlash (s : String) : String :=
  ⟨(((s.data.reverse).dropWhile (fun c => c ≠ '/')).reverse)⟩

/-- Model of strings.Split for a one-character separator. -/
def splitOnSep (sep : Char) : List Char → List (List Char)
  | [] => [[]]
  | c :: rest =>
    match splitOnSep sep rest with
    | [] => [[]]
    | h :: t => if c = sep then [] :: h :: t else (c :: h) :: t

/-- Model of net/url resolvePath: merge a reference path into a base path
and remove dot segments, always producing a leading slash. -/
def resolvePath (base ref : String) : String :=
  let full :=
    if ref = "" then base
    else if ¬ hasPrefix "/" ref then uptoLastSlash base ++ ref
    else ref
  if full = "" then ""
  else
    let src := (splitOnSep '/' full.data).map fun l => (⟨l⟩ : String)
    let dst := src.foldl (fun dst elem =>
      if elem = "." then dst
      else if elem = ".." then dst.dropLast
      else dst ++ [elem]) ([] : List String)
    let dst := if src.getLastD "" = "." ∨ src.getLastD "" = ".." then dst ++ [""] else dst
    let joined := String.intercalate "/" dst
    "/" ++ (if hasPrefix "/" joined then ⟨joined.data.drop 1⟩ else joined)

/-- Model of URL.ResolveReference restricted to the fields of the URL
model: an absolute reference replaces the base, an empty reference copies
it, and otherwise the reference path is resolved against the base path with
the reference query kept. -/
def resolveReference (u ref : URL) : URL :=
  if ref.scheme ≠ "" ∨ ref.host ≠ "" then
    { ref with
      scheme := if ref.scheme = "" then u.scheme else ref.scheme,
      path := resolvePath ref.path "" }
  else if ref.path = "" ∧ ref.rawQuery = "" then
    { scheme := u.scheme, host := u.host,
      path := resolvePath u.path "", rawQuery := u.rawQuery }
  else
    { scheme := u.scheme, host := u.host,
      path := resolvePath u.path ref.path, rawQuery := ref.rawQuery }

/-! ## URL modifiers (Query, QueryMap, Param, IntParam) -/

/-- A URL modifier: the Go version mutates the URL in place and may fail,
the model returns the new URL or the error message. -/
abbrev URLModifier := URL → Except String URL

/-- url.Values: association list from keys to value lists. -/
abbrev Values := List (String × List String)

/-- Insert one key ahead of the first larger key, giving the ascending key
order that sort.Strings produces inside Values.Encode. -/
def insertByKey (p : String × List String) : Values → Values
  | [] => [p]
  | q :: rest => if p.1 ≤ q.1 then p :: q :: rest else q :: insertByKey p rest

/-- Sort a value list by key, modelling the sort.Strings step of
Values.Encode. -/
def sortByKey (v : Values) : Values :=
  v.foldr insertByKey []

/-- Model of url.Values.Encode: keys in ascending order, every value
query-escaped and joined with ampersands. -/
def encodeValues (v : Values) : String :=
  String.intercalate "&"
    (((sortByKey v).map fun p =>
        p.2.map fun x => queryEscape p.1 ++ "=" ++ queryEscape x).flatten)

/-- Model of url.Values.Set: replace the values of a key by a single value. -/
def valuesSet (v : Values) (k x : String) : Values :=
  if v.any (fun p => p.1 == k) then
    v.map fun p => if p.1 == k then (k, [x]) else p
  else v ++ [(k, [x])]

/-- Model of the Query option of src/fourten.go. -/
def query (values : Values) : URLModifier := fun u =>
  if u.rawQuery ≠ "" then
    .error "refusing to overwrite querystring with Query Values"
  else
    .ok { u with rawQuery := encodeValues values }

/-- Model of the QueryMap option of src/fourten.go; the Go map is modelled
as an association list with distinct keys. -/
def queryMap (m : List (String × String)) : URLModifier := fun u =>
  if u.rawQuery ≠ "" then
    .error "refusing to overwrite querystring with QueryMap"
  else
    let values := m.foldl (fun vs p => valuesSet vs p.1 p.2) ([] : Values)
    .ok { u with rawQuery := encodeValues values }

/-- Model of the Param modifier of src/fourten.go: replace every occurrence
of the token (strings.ReplaceAll) and fail when the path is unchanged. -/
def param (k v : String) : URLModifier := fun u =>
  let newPath := stringReplaceAll u.path (":" ++ k) (pathEscape v)
  if u.path = newPath then
    .error ("failed to find parameter " ++ k)
  else
    .ok { u with path := newPath }

/-- Model of the IntParam modifier of src/fourten.go; fmt.Sprintf with the
decimal verb is the decimal rendering of the integer. -/
def intParam (k : String) (v : Int) : URLModifier := fun u =>
  let newPath := stringReplaceAll u.path (":" ++ k) (pathEscape (toString v))
  if u.path = newPath then
    .error ("failed to find parameter " ++ k)
  else
    .ok { u with path := newPath }

/-- Spelled out from the words of the specification for comparison with
param: replace only the first literal occurrence of the token. -/
def replaceFirst (s pat rep : List Char) : List Char :=
  match s with
  | [] => []
  | c :: rest =>
    if pat ≠ [] ∧ pat.isPrefixOf (c :: rest) then
      rep ++ (c :: rest).drop pat.length
    else
      c :: replaceFirst rest pat rep

/-- The Param modifier as the specification words it (first occurrence
only); used solely to exhibit where the code departs from the sentence. -/
def paramSpecFirst (k v : String) : URLModifier := fun u =>
  let newPath : String := ⟨replaceFirst u.path.data (":" ++ k).data (pathEscape v).data⟩
  if u.path = newPath then
    .error ("failed to find parameter " ++ k)
  else
    .ok { u with path := newPath }

/-! ## Bodies, responses and requests -/

/-- A response body: either the distinguished http.NoBody object, or a
stream that yields some bytes and then possibly a read error (a stream
whose remaining data is empty is drained but still distinct from NoBody). -/
inductive Body where
  | noBody : Body
  | stream (data : Bytes) (readErr : Option String) : Body
deriving DecidableEq, Repr

/-- Read a body to the end, modelling io.Copy or ioutil.ReadAll: the bytes
obtained, the read error if the stream failed, and the drained body. -/
def readAll : Body → Bytes × Option String × Body
  | .noBody => ([], none, .noBody)
  | .stream data readErr => (data, readErr, .stream [] readErr)

/-- The parts of an http.Response the client reads. -/
structure Response where
  statusCode : Nat
  header : Header := []
  contentLength : Int := 0
  body : Body := .noBody
deriving DecidableEq, Repr

/-- The parts of the outgoing http.Request the client builds; the context
deadline models the deadline of the context attached by WithContext. -/
structure Request where
  method : String
  url : URL
  header : Header := []
  ctxDeadline : Option Nat := none
  contentLength : Nat := 0
  body : Bytes := []
deriving DecidableEq, Repr

/-- A decoder: given the declared content type and the bytes of the body,
either fail or produce the decoded value, modelling the Decoder function
type of src/fourten.go (the target pointer becomes the returned value). -/
abbrev Decoder (α : Type) := String → Bytes → Except String α

/-- An encoder: either fail or produce the encoded bytes together with the
extra headers, modelling Encoder and RequestEncoding of src/fourten.go (the
idempotent GetBody of a RequestEncoding is determined by the bytes). -/
abbrev Encoder (β : Type) := β → Except String (Bytes × Header)

/-- Model of jsonDecoder of src/fourten.go; the encoding/json machinery of
the standard library is abstracted as the parse argument. -/
def jsonDecoder (parse : Bytes → Except String α) : Decoder α := fun contentType data =>
  if ¬ hasPrefix "application/json" contentType then
    .error ("expected JSON content-type, got " ++ contentType)
  else
    match parse data with
    | .error e => .error ("failed to decode: " ++ e)
    | .ok a => .ok a

/-- Model of jsonEncoder of src/fourten.go; the encoding/json machinery is
abstracted as the ser argument, and the buffered bytes give the idempotent
GetBody together with the JSON content-type header. -/
def jsonEncoder (ser : β → Except String Bytes) : Encoder β := fun input =>
  match ser input with
  | .error e => .error e
  | .ok bs => .ok (bs, [("Content-Type", ["application/json; charset=utf-8"])])

/-- Model of handleDecoding of src/fourten.go: the four-way switch on
whether the body is http.NoBody and whether an output target was supplied.
Returns the decode outcome (the populated value when one was produced) and
the body as the caller leaves it. -/
def handleDecoding (res : Response) (decoder : Decoder α) (wantOutput : Bool) :
    Except String (Option α) × Body :=
  match res.body, wantOutput with
  | .noBody, true => (.error "unexpected empty response", .noBody)
  | .noBody, false => (.ok none, .noBody)
  | .stream _ readErr, false =>
    match readErr with
    | some e => (.error e, .stream [] readErr)
    | none => (.ok none, .stream [] none)
  | .stream data readErr, true =>
    match readErr with
    | some e => (.error e, .stream [] readErr)
    | none =>
      match decoder (headerGet res.header "content-type") data with
      | .error e => (.error e, .stream [] none)
      | .ok a => (.ok (some a), .stream [] none)

/-! ## HTTPError -/

/-- Model of the HTTPError struct: the response, the lazily captured body
buffer and the decoder bound at capture time (both absent until
populateBody runs, matching the zero value of the Go struct). -/
structure HTTPError (α : Type) where
  response : Response
  body : Option Bytes := none
  decoder : Option (Decoder α) := none

/-- Model of coerceHTTPError of src/fourten.go: any status of at least 300
is wrapped, anything below is not. -/
def coerceHTTPError (res : Response) : Option (HTTPError α) :=
  if 300 ≤ res.statusCode then some { response := res } else none

/-- Model of the Error method of HTTPError. -/
def HTTPError.errorMessage (e : HTTPError α) : String :=
  "HTTP Status " ++ toString e.response.statusCode

/-- Model of HTTPError.populateBody: bind the decoder, copy the response
body into the captured buffer, and report the copy error; the response
field keeps the drained stream because the Go struct shares the response
pointer with the caller. -/
def HTTPError.populateBody (e : HTTPError α) (d : Decoder α) :
    HTTPError α × Option String :=
  let r := readAll e.response.body
  ({ e with
      decoder := some d,
      body := some r.1,
      response := { e.response with body := r.2.2 } },
    r.2.1)

/-- Model of HTTPError.Decode and Body: a fresh response value is built
whose body streams the captured bytes, and handleDecoding runs on it with
the bound decoder; calling it before populateBody would dereference a nil
decoder in Go and is represented by an error. -/
def HTTPError.decode (e : HTTPError α) (wantOutput : Bool) : Except String (Option α) :=
  match e.decoder with
  | some d =>
    (handleDecoding { e.response with body := .stream (e.body.getD []) none } d wantOutput).1
  | none => .error "nil decoder"

/-- Model of the Body method of HTTPError: the captured bytes. -/
def HTTPError.bodyBytes (e : HTTPError α) : Bytes :=
  e.body.getD []

/-- An error returned by Call: either a plain message built with
errors.New or fmt.Errorf, or a structured HTTPError. -/
inductive CallError (α : Type) where
  | msg (s : String)
  | http (e : HTTPError α)

/-- The Error string of a CallError. -/
def CallError.description : CallError α → String
  | .msg s => s
  | .http e => e.errorMessage

/-- Model of errors.Is(err, ErrHTTP): the Is method of HTTPError matches
exactly the ErrHTTP sentinel, and no plain message error does. -/
def CallError.matchesErrHTTP : CallError α → Bool
  | .msg _ => false
  | .http _ => true

/-- Model of AsHTTPError of src/fourten.go. -/
def asHTTPError : CallError α → Option (HTTPError α)
  | .msg _ => none
  | .http e => some e

/-! ## Client configuration and options (value view, used by the call pipeline) -/

/-- One second in nanoseconds, the value of time.Second. -/
def timeSecond : Nat := 1000000000

/-- The default User-Agent header value. -/
def defaultUserAgent : String := "fourten (Go HTTP Client)"

/-- The configuration fields of the Client struct the call pipeline reads;
alpha is the decoded output type, beta the encoder input type. -/
structure Client (α β : Type) where
  url : URL := {}
  header : Header := []
  timeout : Nat := timeSecond
  encoder : Option (Encoder β) := none
  decoder : Option (Decoder α) := none
  noFollow : Bool := false

/-- The options of src/fourten.go as data, so a list of applied options can
be quantified over; the json codec options carry the abstracted
encoding/json serializer and parser. -/
inductive ClientOption (α β : Type) where
  | requestTimeout (d : Nat)
  | baseURL (u : URL)
  | setHeader (k v : String)
  | bearer (token : String)
  | encodeJSON (ser : β → Except String Bytes)
  | decodeJSON (parse : Bytes → Except String α)
  | dontDecode
  | noFollow

/-- Apply one option to a client, mirroring the corresponding closures of
src/fourten.go. -/
def applyOption (c : Client α β) : ClientOption α β → Client α β
  | .requestTimeout d => { c with timeout := d }
  | .baseURL u => { c with url := u }
  | .setHeader k v => { c with header := headerSet c.header k v }
  | .bearer token => { c with header := headerSet c.header "Authorization" ("Bearer " ++ token) }
  | .encodeJSON ser => { c with encoder := some (jsonEncoder ser) }
  | .decodeJSON parse =>
    { c with
        header := headerSet c.header "Accept" "application/json",
        decoder := some (jsonDecoder parse) }
  | .dontDecode => { c with header := headerDel c.header "Accept", decoder := none }
  | .noFollow => { c with noFollow := true }

/-- Model of New: the zero client with a one second timeout and the default
User-Agent header, then the options in order. -/
def newClient (opts : List (ClientOption α β)) : Client α β :=
  opts.foldl applyOption
    { header := headerSet [] "User-Agent" defaultUserAgent }

/-! ## The call pipeline -/

/-- The caller context: an optional deadline in nanoseconds. -/
abbrev Ctx := Option Nat

/-- Model of context.WithTimeout at the current instant: the new deadline
is now plus the duration, tightened by an earlier parent deadline. -/
def withTimeout (ctx : Ctx) (now d : Nat) : Option Nat :=
  match ctx with
  | none => some (now + d)
  | some parent => some (min parent (now + d))

/-- Model of Client.buildRequest: parse the target (the outcome of url.Parse
is supplied by the parse oracle, standing for the standard library), resolve
it against the base URL, clone the headers, and run the URL modifiers in
order, any failure aborting. -/
def buildRequest (c : Client α β) (parse : String → Except String URL)
    (method target : String) (ums : List URLModifier) : Except String Request :=
  match parse target with
  | .error e => .error e
  | .ok targetURL =>
    let u0 := resolveReference c.url targetURL
    match ums.foldlM (fun u um => um u) u0 with
    | .error e => .error e
    | .ok u =>
      .ok { method := method, url := u, header := c.header }

/-- Model of Client.setupEncoding: a nil input suppresses encoding, input
without an encoder is an error, and otherwise the encoding supplies the
bytes, the length and extra headers. -/
def setupEncoding (c : Client α β) (req : Request) (input : Option β) :
    Except String Request :=
  match input with
  | none => .ok { req with contentLength := 0, body := [] }
  | some v =>
    match c.encoder with
    | none => .error "input requested but no encoder configured"
    | some enc =>
      match enc v with
      | .error e => .error ("failed to encode: " ++ e)
      | .ok (bs, hdr) =>
        .ok { req with
                contentLength := bs.length,
                header := copyHeaders req.header hdr,
                body := bs }

/-- The stage of Call after the transport returned a response: error
coercion, error-body capture when a decoder is configured, and output
decoding; returns the response and error exactly as Call returns them. -/
def afterResponse (c : Client α β) (res : Response) (wantOutput : Bool) :
    Option Response × Option (CallError α) :=
  match coerceHTTPError (α := α) res with
  | some he =>
    match c.decoder with
    | some d =>
      let pb := he.populateBody d
      match pb.2 with
      | some err => (none, some (.msg ("failed to read error body: " ++ err)))
      | none => (some pb.1.response, some (.http pb.1))
    | none => (some res, some (.http he))
  | none =>
    match c.decoder with
    | some d =>
      match handleDecoding res d wantOutput with
      | (.error e, _) => (none, some (.msg e))
      | (.ok _, body) => (some { res with body := body }, none)
    | none => (some res, none)

/-- The outcome of a Call together with the physical requests handed to the
transport, so that claims about requests never being sent are statable. -/
structure CallResult (α : Type) where
  response : Option Response
  error : Option (CallError α)
  issued : List Request

/-- Model of Client.Call: the decoder guard, buildRequest, the per-call
timeout context, setupEncoding, one transport exchange through the net
oracle, then afterResponse.  The oracle stands for http.Client.Do with its
own redirect following. -/
def Client.call (c : Client α β) (parse : String → Except String URL)
    (net : Request → Except String Response) (now : Nat) (ctx : Ctx)
    (method target : String) (input : Option β) (wantOutput : Bool)
    (ums : List URLModifier) : CallResult α :=
  if wantOutput ∧ c.decoder.isNone then
    ⟨none, some (.msg "output requested but no decoder configured"), []⟩
  else
    match buildRequest c parse method target ums with
    | .error e => ⟨none, some (.msg e), []⟩
    | .ok req =>
      match setupEncoding c { req with ctxDeadline := withTimeout ctx now c.timeout } input with
      | .error e => ⟨none, some (.msg e), []⟩
      | .ok req =>
        match net req with
        | .error e => ⟨none, some (.msg e), [req]⟩
        | .ok res =>
          ⟨(afterResponse c res wantOutput).1, (afterResponse c res wantOutput).2, [req]⟩

/-- Model of the GET verb method: it delegates to Call with nil input. -/
def Client.get (c : Client α β) (parse : String → Except String URL)
    (net : Request → Except String Response) (now : Nat) (ctx : Ctx)
    (target : String) (wantOutput : Bool) (ums : List URLModifier) : CallResult α :=
  c.call parse net now ctx "GET" target none wantOutput ums

/-! ## Heap view of clients (pointer structure of New, Derive and the
mutating options)

Go clients hold pointers: Request.Header and Request.URL are heap objects,
and httpClient is a heap object whose Transport field is itself a shared
pointer.  Derive clones the header set (Header.Clone), copies the URL
(ResolveReference against the empty reference) and copies the http.Client
struct by value, so only the transport pointer inside it remains shared.
The heap model makes this aliasing explicit so that claims about mutation
of one client not affecting another are statable. -/

/-- The http.Client struct: the shared transport pointer and the
CheckRedirect field that NoFollow mutates. -/
structure HttpClientObj where
  transportRef : Nat
  noFollow : Bool
deriving DecidableEq, Repr

/-- A client as a record of references into the heap plus the by-value
fields of the Client struct. -/
structure HClient where
  headerRef : Nat
  urlRef : Nat
  httpClientRef : Nat
  timeout : Nat
  hasEncoder : Bool
  hasDecoder : Bool
deriving DecidableEq, Repr

/-- The heap: the objects at each address and the next fresh address. -/
structure Heap where
  headerAt : Nat → Header
  urlAt : Nat → URL
  httpClientAt : Nat → HttpClientObj
  next : Nat

/-- The options in the heap view; the codec options only record which codec
fields they set, the function values being irrelevant to aliasing. -/
inductive HOption where
  | requestTimeout (d : Nat)
  | baseURL (u : URL)
  | setHeader (k v : String)
  | bearer (token : String)
  | encodeJSON
  | decodeJSON
  | dontDecode
  | noFollow
deriving DecidableEq, Repr

/-- Write a header object at an address. -/
def Heap.writeHeader (h : Heap) (r : Nat) (v : Header) : Heap :=
  { h with headerAt := fun x => if x = r then v else h.headerAt x }

/-- Write a URL object at an address. -/
def Heap.writeURL (h : Heap) (r : Nat) (v : URL) : Heap :=
  { h with urlAt := fun x => if x = r then v else h.urlAt x }

/-- Write an http.Client object at an address. -/
def Heap.writeHttpClient (h : Heap) (r : Nat) (v : HttpClientObj) : Heap :=
  { h with httpClientAt := fun x => if x = r then v else h.httpClientAt x }

/-- Apply one option to a client in the heap view, mirroring which heap
object each option closure of src/fourten.go mutates: SetHeader and Bearer
and the Accept side of the codec options mutate the header object in
place, BaseURL repoints the URL reference at a freshly parsed URL object,
NoFollow mutates the http.Client object, and RequestTimeout and the codec
fields are by-value fields of the Client struct. -/
def applyHOption (h : Heap) (c : HClient) : HOption → Heap × HClient
  | .requestTimeout d => (h, { c with timeout := d })
  | .baseURL u =>
    ({ (h.writeURL h.next u) with next := h.next + 1 }, { c with urlRef := h.next })
  | .setHeader k v =>
    (h.writeHeader c.headerRef (headerSet (h.headerAt c.headerRef) k v), c)
  | .bearer token =>
    (h.writeHeader c.headerRef
      (headerSet (h.headerAt c.headerRef) "Authorization" ("Bearer " ++ token)), c)
  | .encodeJSON => (h, { c with hasEncoder := true })
  | .decodeJSON =>
    (h.writeHeader c.headerRef (headerSet (h.headerAt c.headerRef) "Accept" "application/json"),
      { c with hasDecoder := true })
  | .dontDecode =>
    (h.writeHeader c.headerRef (headerDel (h.headerAt c.headerRef) "Accept"),
      { c with hasDecoder := false })
  | .noFollow =>
    (h.writeHttpClient c.httpClientRef
      { h.httpClientAt c.httpClientRef with noFollow := true }, c)

/-- Apply a list of options in order. -/
def applyHOptions (h : Heap) (c : HClient) : List HOption → Heap × HClient
  | [] => (h, c)
  | o :: rest =>
    let hc := applyHOption h c o
    applyHOptions hc.1 hc.2 rest

/-- Model of New in the heap view: allocate the header set with the default
User-Agent, an empty URL and a zero http.Client whose nil transport means
the globally shared default transport (address zero), then apply the
options. -/
def hnew (h : Heap) (opts : List HOption) : Heap × HClient :=
  let n := h.next
  let h := h.writeHeader n (headerSet [] "User-Agent" defaultUserAgent)
  let h := h.writeURL (n + 1) {}
  let h := h.writeHttpClient (n + 2) { transportRef := 0, noFollow := false }
  applyHOptions { h with next := n + 3 }
    { headerRef := n, urlRef := n + 1, httpClientRef := n + 2,
      timeout := timeSecond, hasEncoder := false, hasDecoder := false } opts

/-- The copy of a URL that ResolveReference against the empty reference
produces: the same components with the path run through resolvePath. -/
def resolveEmptyRef (u : URL) : URL :=
  { u with path := resolvePath u.path "" }

/-- Model of Client.Derive in the heap view: clone the header object, copy
the URL object, copy the http.Client struct into a fresh object (its
transport reference, being a pointer field, is copied and therefore
shared), keep the by-value fields, then apply the extra options to the
child. -/
def hderive (h : Heap) (c : HClient) (opts : List HOption) : Heap × HClient :=
  let n := h.next
  let h1 := h.writeHeader n (h.headerAt c.headerRef)
  let h2 := h1.writeURL (n + 1) (resolveEmptyRef (h.urlAt c.urlRef))
  let h3 := h2.writeHttpClient (n + 2) (h.httpClientAt c.httpClientRef)
  applyHOptions { h3 with next := n + 3 }
    { headerRef := n, urlRef := n + 1, httpClientRef := n + 2,
      timeout := c.timeout, hasEncoder := c.hasEncoder, hasDecoder := c.hasDecoder } opts

/-- Everything observable about a client configuration: the dereferenced
header set and base URL, the by-value fields, and the redirect policy held
in the http.Client object. -/
structure HView where
  header : Header
  url : URL
  timeout : Nat
  hasEncoder : Bool
  hasDecoder : Bool
  noFollow : Bool
deriving DecidableEq, Repr

/-- Dereference a client in a heap. -/
def hview (h : Heap) (c : HClient) : HView :=
  { header := h.headerAt c.headerRef,
    url := h.urlAt c.urlRef,
    timeout := c.timeout,
    hasEncoder := c.hasEncoder,
    hasDecoder := c.hasDecoder,
    noFollow := (h.httpClientAt c.httpClientRef).noFollow }

/-- All three references of a client point below an address bound. -/
def refsBelow (c : HClient) (n : Nat) : Prop :=
  c.headerRef < n ∧ c.urlRef < n ∧ c.httpClientRef < n

/-! ## Retry engine (absent from src, modelled from the specification) -/

/-- Modelled from the spec: the classification of one attempt by the retry
engine of section 4.5, whose implementation is not under src (only its
tests and the README mention it). -/
inductive AttemptResult where
  | success
  | retryableFailure
  | terminalFailure
deriving DecidableEq, Repr

/-- Modelled from the spec: why the retry loop stopped. -/
inductive RetryStop where
  | success
  | terminal
  | attemptsExhausted
  | durationExceeded
  | cancelled
deriving DecidableEq, Repr

/-- Modelled from the spec: the retry loop of section 4.5, absent from src.
Attempts are numbered from one; outcome gives the classification of each
attempt, elapsedAfter the wall time elapsed once that attempt finished, and
cancelledBefore whether the caller cancellation fired before the attempt
started.  The loop stops at the first of: cancellation (which always wins
immediately), success, terminal classification, maxAttempts attempts made,
or elapsed wall time exceeding maxDuration.  The result is the number of
physical requests issued and the stop condition. -/
def retryLoop (maxAttempts maxDuration : Nat) (outcome : Nat → AttemptResult)
    (elapsedAfter : Nat → Nat) (cancelledBefore : Nat → Bool)
    (made : Nat) : Nat × RetryStop :=
  let n := made + 1
  if cancelledBefore n then (made, .cancelled)
  else
    match outcome n with
    | .success => (n, .success)
    | .terminalFailure => (n, .terminal)
    | .retryableFailure =>
      if maxAttempts ≤ n then (n, .attemptsExhausted)
      else if maxDuration < elapsedAfter n then (n, .durationExceeded)
      else retryLoop maxAttempts maxDuration outcome elapsedAfter cancelledBefore n
termination_by maxAttempts - made
decreasing_by
  rename_i hle _
  omega

/-- Modelled from the spec: run the retry loop from zero attempts made. -/
def runRetry (maxAttempts maxDuration : Nat) (outcome : Nat → AttemptResult)
    (elapsedAfter : Nat → Nat) (cancelledBefore : Nat → Bool) : Nat × RetryStop :=
  retryLoop maxAttempts maxDuration outcome elapsedAfter cancelledBefore 0

/-- The read error a body will report, if any. -/
def readErrOf : Body → Option String
  | .noBody => none
  | .stream _ e => e

/-! ## Supporting lemmas -/

/-- setupEncoding never changes the context deadline of the request. -/
theorem setupEncoding_ctxDeadline (c : Client α β) (req : Request) (input : Option β)
    (req' : Request) (h : setupEncoding c req input = .ok req') :
    req'.ctxDeadline = req.ctxDeadline := by
  unfold setupEncoding at h
  split at h
  · injection h with h
    rw [← h]
  · split at h
    · exact absurd h (by simp)
    · split at h
      · exact absurd h (by simp)
      · injection h with h
        rw [← h]

/-- No option other than requestTimeout changes the timeout field. -/
theorem applyOption_timeout (c : Client α β) (o : ClientOption α β)
    (h : ∀ d, o ≠ .requestTimeout d) : (applyOption c o).timeout = c.timeout := by
  cases o with
  | requestTimeout d => exact absurd rfl (h d)
  | baseURL u => rfl
  | setHeader k v => rfl
  | bearer t => rfl
  | encodeJSON ser => rfl
  | decodeJSON parse => rfl
  | dontDecode => rfl
  | noFollow => rfl

/-- Folding options without requestTimeout keeps the timeout field. -/
theorem applyOptions_timeout (opts : List (ClientOption α β)) :
    ∀ (c : Client α β), (∀ o ∈ opts, ∀ d, o ≠ .requestTimeout d) →
    (opts.foldl applyOption c).timeout = c.timeout := by
  induction opts with
  | nil => intro c _; rfl
  | cons o rest ih =>
    intro c h
    simp only [List.foldl_cons]
    rw [ih (applyOption c o) (fun q hq => h q (List.mem_cons_of_mem o hq))]
    exact applyOption_timeout c o (h o (List.mem_cons_self o rest))

/-- Under overall retryable failure, no cancellation and no duration
excess, the retry loop runs up to maxAttempts and stops there. -/
theorem retryLoop_all_fail (K D : Nat) (outcome : Nat → AttemptResult)
    (elapsedAfter : Nat → Nat) (cancelledBefore : Nat → Bool)
    (ho : ∀ n, outcome n = .retryableFailure)
    (hc : ∀ n, cancelledBefore n = false)
    (he : ∀ n, elapsedAfter n ≤ D) :
    ∀ (fuel made : Nat), K - made ≤ fuel → made < K →
    retryLoop K D outcome elapsedAfter cancelledBefore made = (K, .attemptsExhausted) := by
  intro fuel
  induction fuel with
  | zero => intro made hf hm; omega
  | succ f ih =>
    intro made hf hm
    rw [retryLoop]
    rw [hc (made + 1), ho (made + 1)]
    simp only [Bool.false_eq_true, if_false]
    by_cases hK : K ≤ made + 1
    · have : made + 1 = K := by omega
      rw [if_pos hK, this]
    · rw [if_neg hK]
      have hD : ¬ D < elapsedAfter (made + 1) := by
        have := he (made + 1); omega
      rw [if_neg hD]
      exact ih (made + 1) (by omega) (by omega)

/-! ## Claim C3 -/

/-- C3: with retry enabled and maxAttempts K at least one, a call against
an endpoint failing retryably on every attempt, with the caller never
cancelling and the elapsed wall time never exceeding maxDuration, issues
exactly K physical requests and stops because the attempts are exhausted;
the modelled loop stops at the first of success, terminal classification,
K attempts made, maxDuration elapsed, or cancellation. -/
theorem retry_ceiling_exact_attempts (K D : Nat) (outcome : Nat → AttemptResult)
    (elapsedAfter : Nat → Nat) (cancelledBefore : Nat → Bool)
    (hK : 1 ≤ K)
    (ho : ∀ n, outcome n = .retryableFailure)
    (hc : ∀ n, cancelledBefore n = false)
    (he : ∀ n, elapsedAfter n ≤ D) :
    runRetry K D outcome elapsedAfter cancelledBefore = (K, .attemptsExhausted) :=
  retryLoop_all_fail K D outcome elapsedAfter cancelledBefore ho hc he K 0
    (by omega) (by omega)

/-- Witness for C3: three attempts configured against an always-failing
endpoint give exactly three requests. -/
theorem retry_ceiling_exact_attempts_witness :
    runRetry 3 100 (fun _ => .retryableFailure) (fun _ => 0) (fun _ => false)
      = (3, .attemptsExhausted) :=
  retry_ceiling_exact_attempts 3 100 (fun _ => .retryableFailure) (fun _ => 0)
    (fun _ => false) (by omega) (fun _ => rfl) (fun _ => rfl) (fun _ => Nat.zero_le _)

/-! ## Claim C9 -/

/-- C9: a call requesting output on a client without a decoder returns a
nil response and the decoder-guard error with no request issued, whatever
the parse oracle, the network, the target and the modifiers are, so the
guard fires before the target URL is parsed, before any modifier runs and
before any request goes out. -/
theorem call_decoder_guard (c : Client α β) (parse : String → Except String URL)
    (net : Request → Except String Response) (now : Nat) (ctx : Ctx)
    (method target : String) (input : Option β) (ums : List URLModifier)
    (h : c.decoder = none) :
    c.call parse net now ctx method target input true ums =
      ⟨none, some (.msg "output requested but no decoder configured"), []⟩ := by
  unfold Client.call
  rw [if_pos ⟨rfl, by rw [h]; rfl⟩]

/-- Witness for C9 at a concrete decoder-less client. -/
theorem call_decoder_guard_witness :
    (newClient [] : Client Nat Nat).call (fun _ => .error "unused parse")
        (fun _ => .error "unused network") 0 none "GET" "/ping" none true [] =
      ⟨none, some (.msg "output requested but no decoder configured"), []⟩ :=
  call_decoder_guard (newClient []) (fun _ => .error "unused parse")
    (fun _ => .error "unused network") 0 none "GET" "/ping" none [] rfl

/-! ## Claim C10 -/

/-- C10: a client built by New without the RequestTimeout option has a
timeout of exactly one second, and every request a call hands to the
transport carries as its context deadline the timeout applied to the
context of the caller at the instant of the call. -/
theorem default_timeout_and_deadline (α β : Type) :
    (∀ (opts : List (ClientOption α β)),
      (∀ o ∈ opts, ∀ d, o ≠ .requestTimeout d) →
      (newClient opts).timeout = timeSecond)
    ∧ (∀ (c : Client α β) parse net (now : Nat) (ctx : Ctx) method target input w ums
        (req : Request), req ∈ (c.call parse net now ctx method target input w ums).issued →
        req.ctxDeadline = withTimeout ctx now c.timeout) := by
  constructor
  · intro opts h
    unfold newClient
    exact applyOptions_timeout opts _ h
  · intro c parse net now ctx method target input w ums req hreq
    unfold Client.call at hreq
    split at hreq
    · simp at hreq
    · split at hreq
      · simp at hreq
      · rename_i req0 hb
        split at hreq
        · simp at hreq
        · rename_i req1 hs
          have hd := setupEncoding_ctxDeadline c _ input req1 hs
          split at hreq
          · simp only [List.mem_singleton] at hreq
            rw [hreq, hd]
          · simp only [List.mem_singleton] at hreq
            rw [hreq, hd]

/-- Witness for C10: the default client has a one second timeout, and a
concrete call stamps the context deadline now plus timeout tightened by
the parent deadline. -/
theorem default_timeout_and_deadline_witness :
    (newClient [] : Client Nat Nat).timeout = timeSecond
    ∧ ({ method := "GET", url := { scheme := "http", host := "x", path := "/ping" },
         header := headerSet [] "User-Agent" defaultUserAgent,
         ctxDeadline := withTimeout (some 5000000000) 7 timeSecond } : Request).ctxDeadline
        = withTimeout (some 5000000000) 7 timeSecond := by
  constructor
  · exact (default_timeout_and_deadline Nat Nat).1 [] (by intro o ho; simp at ho)
  · exact (default_timeout_and_deadline Nat Nat).2 (newClient [])
      (fun _ => .ok { scheme := "http", host := "x", path := "/ping" })
      (fun _ => .ok { statusCode := 200 }) 7 (some 5000000000) "GET" "/ping" none false []
      _ (List.mem_singleton.mpr (by rfl))

/-! ## Claim C6 -/

/-- C6: with a decoder configured on a success response, an empty
(http.NoBody) body with no output target is a no-op returning no error, an
empty body with an output target is the unexpected-empty-response error,
and a non-empty body with no output target is drained to the end without
the decoder being consulted (the same result for every decoder); through
the response stage of Call, a 204-style response with no output target
comes back unchanged with a nil error. -/
theorem decoder_empty_body_cases (c : Client α β) (res : Response) (d : Decoder α)
    (data : Bytes) :
    (res.body = .noBody → handleDecoding res d false = (.ok none, .noBody))
    ∧ (res.body = .noBody → handleDecoding res d true = (.error "unexpected empty response", .noBody))
    ∧ (res.body = .stream data none → handleDecoding res d false = (.ok none, .stream [] none))
    ∧ (res.body = .noBody → res.statusCode < 300 → c.decoder = some d →
        afterResponse c res false = (some res, none)) := by
  refine ⟨?_, ?_, ?_, ?_⟩
  · intro h; unfold handleDecoding; rw [h]
  · intro h; unfold handleDecoding; rw [h]
  · intro h; unfold handleDecoding; rw [h]
  · intro h hs hd
    cases res with
    | mk s hdr cl b =>
      have hb : b = Body.noBody := h
      subst hb
      have hs' : s < 300 := hs
      simp [afterResponse, coerceHTTPError, handleDecoding, hd, Nat.not_le.mpr hs']

/-- Witness for C6 at a concrete 204 exchange with the JSON decoder. -/
theorem decoder_empty_body_cases_witness :
    handleDecoding { statusCode := 204, body := .noBody }
        (jsonDecoder (fun _ => .ok (0 : Nat))) false = (.ok none, .noBody)
    ∧ handleDecoding { statusCode := 204, body := .noBody }
        (jsonDecoder (fun _ => .ok (0 : Nat))) true
        = (.error "unexpected empty response", .noBody)
    ∧ handleDecoding { statusCode := 200, body := .stream [80, 79, 78, 71] none }
        (jsonDecoder (fun _ => .ok (0 : Nat))) false = (.ok none, .stream [] none)
    ∧ afterResponse { decoder := some (jsonDecoder (fun _ => .ok (0 : Nat))) : Client Nat Nat }
        { statusCode := 204, body := .noBody } false
        = (some { statusCode := 204, body := .noBody }, none) := by
  refine ⟨?_, ?_, ?_, ?_⟩
  · exact (decoder_empty_body_cases ({} : Client Nat Nat) _ _ []).1 rfl
  · exact (decoder_empty_body_cases ({} : Client Nat Nat) _ _ []).2.1 rfl
  · exact (decoder_empty_body_cases ({} : Client Nat Nat) _ _ [80, 79, 78, 71]).2.2.1 rfl
  · exact (decoder_empty_body_cases
      ({ decoder := some (jsonDecoder (fun _ => .ok (0 : Nat))) : Client Nat Nat })
      _ _ []).2.2.2 rfl (by decide) rfl

/-! ## Claim C7 -/

/-- C7: the JSON decoder rejects every content type outside the JSON
media-type family with the hard content-type error, never silently
skipping, and it only ever produces a decoded value when the content type
matches the family. -/
theorem json_content_type_gate (parse : Bytes → Except String α) (ct : String)
    (data : Bytes) :
    (data ≠ [] → hasPrefix "application/json" ct = false →
      jsonDecoder parse ct data = .error ("expected JSON content-type, got " ++ ct))
    ∧ (∀ a, jsonDecoder parse ct data = .ok a → hasPrefix "application/json" ct = true) := by
  constructor
  · intro _ h
    unfold jsonDecoder
    rw [h]
    simp
  · intro a h
    by_cases hp : hasPrefix "application/json" ct = true
    · exact hp
    · unfold jsonDecoder at h
      rw [eq_false_of_ne_true hp] at h
      simp at h

/-- Witness for C7: an HTML content type with a non-empty body is a hard
error for the JSON decoder. -/
theorem json_content_type_gate_witness :
    jsonDecoder (fun _ => .ok (0 : Nat)) "text/html; charset=utf-8" [60, 104, 62]
      = .error "expected JSON content-type, got text/html; charset=utf-8" :=
  (json_content_type_gate (fun _ => .ok (0 : Nat)) "text/html; charset=utf-8"
    [60, 104, 62]).1 (by simp) (by decide)

/-! ## Claim C5 -/

/-- C5: Query and QueryMap fail exactly when the resolved URL already
carries a non-empty querystring, with messages that name the querystring,
and when the querystring is empty they set it to the canonical Values
encoding; a collision aborts the call before any request is issued. -/
theorem query_collision_iff (α β : Type) (values : Values)
    (m : List (String × String)) (u : URL) :
    (u.rawQuery ≠ "" →
      query values u = .error "refusing to overwrite querystring with Query Values"
      ∧ queryMap m u = .error "refusing to overwrite querystring with QueryMap")
    ∧ (u.rawQuery = "" →
      query values u = .ok { u with rawQuery := encodeValues values }
      ∧ queryMap m u
          = .ok { u with rawQuery :=
                    encodeValues (m.foldl (fun vs p => valuesSet vs p.1 p.2) []) })
    ∧ containsStr "querystring" "refusing to overwrite querystring with Query Values" = true
    ∧ containsStr "querystring" "refusing to overwrite querystring with QueryMap" = true
    ∧ (∀ (c : Client α β) parse net (now : Nat) (ctx : Ctx) method target tu,
        parse target = .ok tu →
        (resolveReference c.url tu).rawQuery ≠ "" →
        c.call parse net now ctx method target none false [query values]
          = ⟨none, some (.msg "refusing to overwrite querystring with Query Values"), []⟩) := by
  refine ⟨?_, ?_, by decide, by decide, ?_⟩
  · intro h
    constructor
    · unfold query; rw [if_pos h]
    · unfold queryMap; rw [if_pos h]
  · intro h
    constructor
    · unfold query; rw [if_neg (by rw [h]; simp)]
    · unfold queryMap; rw [if_neg (by rw [h]; simp)]
  · intro c parse net now ctx method target tu hp hq
    unfold Client.call
    rw [if_neg (by simp)]
    have hb : buildRequest c parse method target [query values]
        = .error "refusing to overwrite querystring with Query Values" := by
      unfold buildRequest
      rw [hp]
      have : query values (resolveReference c.url tu)
          = .error "refusing to overwrite querystring with Query Values" := by
        unfold query; rw [if_pos hq]
      simp [List.foldlM, this]
    rw [hb]

/-- Witness for C5: the scenario of the specification, an existing
querystring a=1 colliding with Query and the empty-querystring success
path. -/
theorem query_collision_iff_witness :
    query [("b", ["2"])] { scheme := "http", host := "x", path := "/api", rawQuery := "a=1" }
      = .error "refusing to overwrite querystring with Query Values"
    ∧ query [("b", ["2"])] { scheme := "http", host := "x", path := "/api", rawQuery := "" }
      = .ok { scheme := "http", host := "x", path := "/api", rawQuery := "b=2" } := by
  constructor
  · exact ((query_collision_iff Nat Nat [("b", ["2"])] []
      { scheme := "http", host := "x", path := "/api", rawQuery := "a=1" }).1
      (by simp)).1
  · exact ((query_collision_iff Nat Nat [("b", ["2"])] []
      { scheme := "http", host := "x", path := "/api", rawQuery := "" }).2.1 rfl).1

/-! ## Claim C4 (corrected) -/

/-- Counterexample to C4 as stated: the code replaces every occurrence of
the token, not only the first one, as the path /items/:id/:id shows; and a
path that does contain the token can still fail when the escaped value
equals the token itself, so containment alone does not guarantee
substitution. -/
theorem param_counterexample :
    param "id" "42" { scheme := "http", host := "x", path := "/items/:id/:id", rawQuery := "" }
      = .ok { scheme := "http", host := "x", path := "/items/42/42", rawQuery := "" }
    ∧ paramSpecFirst "id" "42"
        { scheme := "http", host := "x", path := "/items/:id/:id", rawQuery := "" }
      = .ok { scheme := "http", host := "x", path := "/items/42/:id", rawQuery := "" }
    ∧ ({ scheme := "http", host := "x", path := "/items/42/42", rawQuery := "" } : URL)
      ≠ { scheme := "http", host := "x", path := "/items/42/:id", rawQuery := "" }
    ∧ param "id" ":id" { scheme := "http", host := "x", path := "/a/:id", rawQuery := "" }
      = .error "failed to find parameter id"
    ∧ containsStr ":id" "/a/:id" = true := by
  refine ⟨rfl, rfl, by decide, rfl, by decide⟩

/-- C4 amended: Param replaces every literal occurrence of the token in the
path with the percent-escaped value and fails, with an error naming the
parameter, exactly when that replacement leaves the path unchanged — in
particular whenever the token is absent — and on failure the request is
never issued. -/
theorem param_behaviour (α β : Type) (u : URL) (k v : String) :
    (containsStr (":" ++ k) u.path = false →
      param k v u = .error ("failed to find parameter " ++ k))
    ∧ (∀ u', param k v u = .ok u' →
        u' = { u with path := stringReplaceAll u.path (":" ++ k) (pathEscape v) }
        ∧ u'.path ≠ u.path)
    ∧ (∀ (c : Client α β) parse net (now : Nat) (ctx : Ctx) method target tu,
        parse target = .ok tu →
        containsStr (":" ++ k) (resolveReference c.url tu).path = false →
        c.call parse net now ctx method target none false [param k v]
          = ⟨none, some (.msg ("failed to find parameter " ++ k)), []⟩) := by
  have key : ∀ w : URL, containsStr (":" ++ k) w.path = false →
      param k v w = .error ("failed to find parameter " ++ k) := by
    intro w hw
    unfold param
    have : stringReplaceAll w.path (":" ++ k) (pathEscape v) = w.path := by
      unfold stringReplaceAll
      rw [replaceAll_of_not_contains _ _ _ hw]
    rw [this, if_pos rfl]
  refine ⟨key u, ?_, ?_⟩
  · intro u' h
    unfold param at h
    by_cases hc : u.path = stringReplaceAll u.path (":" ++ k) (pathEscape v)
    · rw [if_pos hc] at h
      exact absurd h (by simp)
    · rw [if_neg hc] at h
      injection h with h
      exact ⟨h.symm, by rw [← h]; simpa using fun hh => hc hh.symm⟩
  · intro c parse net now ctx method target tu hp hq
    unfold Client.call
    rw [if_neg (by simp)]
    have hb : buildRequest c parse method target [param k v]
        = .error ("failed to find parameter " ++ k) := by
      unfold buildRequest
      rw [hp]
      simp [List.foldlM, key _ hq]
    rw [hb]

/-- Witness for C4 amended: the scenario of the specification, the value
with a space percent-escaped into the path. -/
theorem param_behaviour_witness :
    param "id" "42 " { scheme := "http", host := "x", path := "/items/:id", rawQuery := "" }
      = .ok { scheme := "http", host := "x", path := "/items/42%20", rawQuery := "" }
    ∧ param "missing" "7" { scheme := "http", host := "x", path := "/items/:id", rawQuery := "" }
      = .error "failed to find parameter missing" := by
  constructor
  · rfl
  · exact (param_behaviour Nat Nat
      { scheme := "http", host := "x", path := "/items/:id", rawQuery := "" } "missing" "7").1
      (by decide)


/-! ## Claim C1 (corrected) -/

/-- A decoder-configured client over Nat outputs util for the concrete
exchanges below; the abstracted JSON parse always succeeds with zero. -/
def jsonNatClient : Client Nat Nat :=
  newClient [ClientOption.decodeJSON (fun _ => .ok 0)]

/-- A 500 response whose body stream fails mid-read with unexpected EOF. -/
def resFailingRead : Response :=
  ⟨500, [], 1, .stream [72] (some "unexpected EOF")⟩

/-- A 503 response whose body stream fails mid-read. -/
def resFailingRead503 : Response :=
  ⟨503, [], 1, .stream [66, 67] (some "boom")⟩

/-- A 404 response with a small JSON body and a healthy stream. -/
def resJson404 : Response :=
  ⟨404, [("Content-Type", ["application/json"])], 2, .stream [123, 125] none⟩

/-- Counterexample to C1 as stated: a 500 response whose body stream fails
while being captured (a decoder is configured, so Call reads the error body
into memory) makes Call return a nil response and a failed-to-read error
that does not name the status, against the claim that every status in
[300, 600) yields a non-nil response with an HTTP Status error. -/
theorem status_error_counterexample :
    (jsonNatClient.call (fun _ => .ok {}) (fun _ => .ok resFailingRead)
        0 none "GET" "/error" none true []).response = none
    ∧ (jsonNatClient.call (fun _ => .ok {}) (fun _ => .ok resFailingRead)
        0 none "GET" "/error" none true []).error
      = some (.msg "failed to read error body: unexpected EOF")
    ∧ 300 ≤ resFailingRead.statusCode ∧ resFailingRead.statusCode < 600 :=
  ⟨rfl, rfl, by decide, by decide⟩

/-- C1 amended: for every response with status in [300, 600) received by
Call, provided that when a decoder is configured the error body is read
without a stream failure, Call returns the response (non-nil) together
with a structured HTTPError whose description is exactly HTTP Status
followed by the code, which matches the ErrHTTP sentinel and exposes the
returned response; when the decoder is configured and the body read fails,
Call instead returns a nil response with a failed-to-read error. -/
theorem status_error_coercion (c : Client α β) (parse : String → Except String URL)
    (net : Request → Except String Response) (now : Nat) (ctx : Ctx)
    (method target : String) (tu : URL) (res : Response) (w : Bool)
    (hp : parse target = .ok tu)
    (hnet : ∀ q : Request, net q = .ok res)
    (hw : w = true → c.decoder.isSome = true)
    (hs : 300 ≤ res.statusCode) (_hupper : res.statusCode < 600)
    (hread : c.decoder = none ∨ readErrOf res.body = none) :
    ∃ res' he req,
      c.call parse net now ctx method target none w []
        = ⟨some res', some (.http he), [req]⟩
      ∧ he.response = res'
      ∧ CallError.description (.http he) = "HTTP Status " ++ toString res.statusCode
      ∧ CallError.matchesErrHTTP (α := α) (.http he) = true
      ∧ asHTTPError (.http he) = some he := by
  have hguard : ¬(w = true ∧ c.decoder.isNone = true) := by
    intro ⟨hw1, hn⟩
    have h2 := hw hw1
    rw [Option.isNone_iff_eq_none] at hn
    rw [hn] at h2
    simp at h2
  have hcoerce : coerceHTTPError (α := α) res = some { response := res } := by
    unfold coerceHTTPError
    rw [if_pos hs]
  have hafter : ∃ res' he, afterResponse c res w = (some res', some (.http he))
      ∧ he.response = res'
      ∧ he.errorMessage = "HTTP Status " ++ toString res.statusCode := by
    unfold afterResponse
    rw [hcoerce]
    cases hd : c.decoder with
    | none =>
      exact ⟨res, { response := res }, rfl, rfl, rfl⟩
    | some d =>
      have hre : readErrOf res.body = none := by
        cases hread with
        | inl h => rw [h] at hd; exact absurd hd (by simp)
        | inr h => exact h
      cases hb : res.body with
      | noBody =>
        refine ⟨{ res with body := .noBody },
          { response := { res with body := .noBody }, body := some [], decoder := some d },
          ?_, rfl, rfl⟩
        simp [HTTPError.populateBody, readAll, hb]
      | stream data readErr =>
        have hre2 : readErr = none := by
          unfold readErrOf at hre
          rw [hb] at hre
          exact hre
        subst hre2
        refine ⟨{ res with body := .stream [] none },
          { response := { res with body := .stream [] none },
            body := some data, decoder := some d }, ?_, rfl, rfl⟩
        simp [HTTPError.populateBody, readAll, hb]
  rcases hafter with ⟨res', he, hres, hv, hmsg⟩
  refine ⟨res', he,
    { method := method, url := resolveReference c.url tu, header := c.header,
      ctxDeadline := withTimeout ctx now c.timeout, contentLength := 0, body := [] },
    ?_, hv, hmsg, rfl, rfl⟩
  have hb : buildRequest c parse method target [] = .ok
      { method := method, url := resolveReference c.url tu, header := c.header } := by
    unfold buildRequest
    rw [hp]
    rfl
  simp only [Client.call, if_neg hguard, hb, setupEncoding, hnet, hres]

/-- Witness for C1 amended at a concrete 404 exchange with a decoder
configured and a healthy body stream. -/
theorem status_error_coercion_witness :
    ∃ (res' : Response) (he : HTTPError Nat) (req : Request),
      jsonNatClient.call (fun _ => .ok ⟨"http", "x", "/error", ""⟩)
          (fun _ => .ok resJson404) 3 none "GET" "/error" none true []
        = ⟨some res', some (.http he), [req]⟩
      ∧ he.response = res'
      ∧ CallError.description (.http he) = "HTTP Status 404"
      ∧ CallError.matchesErrHTTP (α := Nat) (.http he) = true
      ∧ asHTTPError (.http he) = some he :=
  status_error_coercion jsonNatClient (fun _ => .ok ⟨"http", "x", "/error", ""⟩)
    (fun _ => .ok resJson404) 3 none "GET" "/error" ⟨"http", "x", "/error", ""⟩
    resJson404 true rfl (fun _ => rfl) (fun _ => rfl) (by decide) (by decide) (Or.inr rfl)

/-! ## Claim C2 (corrected) -/

/-- Counterexample to C2 as stated: with a decoder configured and a 503
whose body stream fails mid-read, the error body is not captured before
Call returns — Call returns a plain failed-to-read message carrying no
HTTPError at all, so nothing is available for later decoding. -/
theorem captured_body_counterexample :
    (jsonNatClient.call (fun _ => .ok {}) (fun _ => .ok resFailingRead503)
        0 none "GET" "/down" none true []).error
      = some (.msg "failed to read error body: boom")
    ∧ ((jsonNatClient.call (fun _ => .ok {}) (fun _ => .ok resFailingRead503)
        0 none "GET" "/down" none true []).error.bind asHTTPError) = none
    ∧ 300 ≤ resFailingRead503.statusCode :=
  ⟨rfl, rfl, by decide⟩

/-- C2 amended: when a decoder is configured, the response status is at
least 300 and the body stream delivers its bytes without a read error, the
whole error body is captured in the returned HTTPError before the response
stage of Call finishes, the network stream is left drained, and Decode
depends only on the captured bytes — its outcome is unchanged under any
replacement of the network-side body, so decoding any number of times
rereads nothing and yields identical results each time. -/
theorem captured_body_decode (c : Client α β) (d : Decoder α) (res : Response)
    (data : Bytes) (w w2 : Bool)
    (hd : c.decoder = some d)
    (hs : 300 ≤ res.statusCode)
    (hb : res.body = .stream data none) :
    ∃ he, (afterResponse c res w).2 = some (.http he)
      ∧ he.body = some data
      ∧ he.bodyBytes = data
      ∧ he.response.body = .stream [] none
      ∧ (∀ b' : Body,
          HTTPError.decode { he with response := { he.response with body := b' } } w2
            = he.decode w2)
      ∧ he.decode w2
          = (handleDecoding { res with body := .stream data none } d w2).1 := by
  have hcoerce : coerceHTTPError (α := α) res = some { response := res } := by
    unfold coerceHTTPError
    rw [if_pos hs]
  refine ⟨{ response := { res with body := .stream [] none },
            body := some data, decoder := some d }, ?_, rfl, rfl, rfl, ?_, ?_⟩
  · unfold afterResponse
    rw [hcoerce, hd]
    simp [HTTPError.populateBody, readAll, hb]
  · intro b'
    rfl
  · rfl

/-- Witness for C2 amended at a concrete 404 with a JSON body. -/
theorem captured_body_decode_witness :
    ∃ he : HTTPError Nat,
      (afterResponse jsonNatClient resJson404 true).2 = some (.http he)
      ∧ he.body = some [123, 125]
      ∧ he.bodyBytes = [123, 125]
      ∧ he.response.body = .stream [] none
      ∧ (∀ b' : Body,
          HTTPError.decode { he with response := { he.response with body := b' } } true
            = he.decode true)
      ∧ he.decode true
          = (handleDecoding { resJson404 with body := .stream [123, 125] none }
              (jsonDecoder (fun _ => .ok (0 : Nat))) true).1 :=
  captured_body_decode jsonNatClient (jsonDecoder (fun _ => .ok (0 : Nat)))
    resJson404 [123, 125] true true rfl (by decide) rfl

/-! ## Claim C8 -/

/-- One option application touches the heap only at the header object and
http.Client object of the client it is applied to, allocates at fresh
addresses only, never repoints the header or http.Client references, keeps
the URL reference below the allocation frontier and preserves the transport
reference of the http.Client object of that client. -/
theorem applyHOption_frame (h : Heap) (c : HClient) (o : HOption) :
    (∀ x, x ≠ c.headerRef → (applyHOption h c o).1.headerAt x = h.headerAt x)
    ∧ (∀ y, y < h.next → (applyHOption h c o).1.urlAt y = h.urlAt y)
    ∧ (∀ z, z ≠ c.httpClientRef → (applyHOption h c o).1.httpClientAt z = h.httpClientAt z)
    ∧ h.next ≤ (applyHOption h c o).1.next
    ∧ (applyHOption h c o).2.headerRef = c.headerRef
    ∧ (applyHOption h c o).2.httpClientRef = c.httpClientRef
    ∧ (c.urlRef < h.next → (applyHOption h c o).2.urlRef < (applyHOption h c o).1.next)
    ∧ ((applyHOption h c o).1.httpClientAt (applyHOption h c o).2.httpClientRef).transportRef
        = (h.httpClientAt c.httpClientRef).transportRef := by
  cases o with
  | requestTimeout d =>
    exact ⟨fun x _ => rfl, fun y _ => rfl, fun z _ => rfl, Nat.le_refl _,
      rfl, rfl, fun hu => hu, rfl⟩
  | baseURL u =>
    refine ⟨fun x _ => rfl, ?_, fun z _ => rfl, by simp [applyHOption, Heap.writeURL],
      rfl, rfl, ?_, rfl⟩
    · intro y hy
      simp only [applyHOption, Heap.writeURL]
      rw [if_neg (by omega)]
    · intro _
      simp [applyHOption, Heap.writeURL]
  | setHeader k v =>
    refine ⟨?_, fun y _ => rfl, fun z _ => rfl, Nat.le_refl _, rfl, rfl, fun hu => hu, rfl⟩
    intro x hx
    simp only [applyHOption, Heap.writeHeader]
    rw [if_neg hx]
  | bearer token =>
    refine ⟨?_, fun y _ => rfl, fun z _ => rfl, Nat.le_refl _, rfl, rfl, fun hu => hu, rfl⟩
    intro x hx
    simp only [applyHOption, Heap.writeHeader]
    rw [if_neg hx]
  | encodeJSON =>
    exact ⟨fun x _ => rfl, fun y _ => rfl, fun z _ => rfl, Nat.le_refl _,
      rfl, rfl, fun hu => hu, rfl⟩
  | decodeJSON =>
    refine ⟨?_, fun y _ => rfl, fun z _ => rfl, Nat.le_refl _, rfl, rfl, fun hu => hu, rfl⟩
    intro x hx
    simp only [applyHOption, Heap.writeHeader]
    rw [if_neg hx]
  | dontDecode =>
    refine ⟨?_, fun y _ => rfl, fun z _ => rfl, Nat.le_refl _, rfl, rfl, fun hu => hu, rfl⟩
    intro x hx
    simp only [applyHOption, Heap.writeHeader]
    rw [if_neg hx]
  | noFollow =>
    refine ⟨fun x _ => rfl, fun y _ => rfl, ?_, Nat.le_refl _, rfl, rfl, fun hu => hu, ?_⟩
    · intro z hz
      simp only [applyHOption, Heap.writeHttpClient]
      rw [if_neg hz]
    · simp [applyHOption, Heap.writeHttpClient]

/-- The list version of the frame property, by induction over the applied
options. -/
theorem applyHOptions_frame (opts : List HOption) :
    ∀ (h : Heap) (c : HClient),
    (∀ x, x ≠ c.headerRef → (applyHOptions h c opts).1.headerAt x = h.headerAt x)
    ∧ (∀ y, y < h.next → (applyHOptions h c opts).1.urlAt y = h.urlAt y)
    ∧ (∀ z, z ≠ c.httpClientRef →
        (applyHOptions h c opts).1.httpClientAt z = h.httpClientAt z)
    ∧ h.next ≤ (applyHOptions h c opts).1.next
    ∧ (applyHOptions h c opts).2.headerRef = c.headerRef
    ∧ (applyHOptions h c opts).2.httpClientRef = c.httpClientRef
    ∧ (c.urlRef < h.next → (applyHOptions h c opts).2.urlRef < (applyHOptions h c opts).1.next)
    ∧ ((applyHOptions h c opts).1.httpClientAt (applyHOptions h c opts).2.httpClientRef).transportRef
        = (h.httpClientAt c.httpClientRef).transportRef := by
  induction opts with
  | nil =>
    intro h c
    exact ⟨fun x _ => rfl, fun y _ => rfl, fun z _ => rfl, Nat.le_refl _,
      rfl, rfl, fun hu => hu, rfl⟩
  | cons o rest ih =>
    intro h c
    obtain ⟨s1, s2, s3, s4, s5, s6, s7, s8⟩ := applyHOption_frame h c o
    obtain ⟨r1, r2, r3, r4, r5, r6, r7, r8⟩ := ih (applyHOption h c o).1 (applyHOption h c o).2
    have step : applyHOptions h c (o :: rest)
        = applyHOptions (applyHOption h c o).1 (applyHOption h c o).2 rest := rfl
    rw [step]
    refine ⟨?_, ?_, ?_, ?_, ?_, ?_, ?_, ?_⟩
    · intro x hx
      rw [r1 x (by rw [s5]; exact hx), s1 x hx]
    · intro y hy
      rw [r2 y (Nat.lt_of_lt_of_le hy s4), s2 y hy]
    · intro z hz
      rw [r3 z (by rw [s6]; exact hz), s3 z hz]
    · exact Nat.le_trans s4 r4
    · rw [r5, s5]
    · rw [r6, s6]
    · intro hu
      exact r7 (s7 hu)
    · rw [r8]
      exact s8

/-- C8: Derive clones the header set and base URL and copies the
http.Client struct, so after deriving a child with any option list from a
well-formed parent, the observable configuration of the parent is exactly
what it was before the derivation, any further options applied to the
parent leave the observable configuration of the child untouched, and the
transport reference inside the http.Client objects of parent and child is
the same shared address. -/
theorem derive_isolation (h : Heap) (p : HClient) (opts opts2 : List HOption)
    (hw : refsBelow p h.next) :
    hview (hderive h p opts).1 p = hview h p
    ∧ hview (applyHOptions (hderive h p opts).1 p opts2).1 (hderive h p opts).2
        = hview (hderive h p opts).1 (hderive h p opts).2
    ∧ ((hderive h p opts).1.httpClientAt (hderive h p opts).2.httpClientRef).transportRef
        = ((hderive h p opts).1.httpClientAt p.httpClientRef).transportRef := by
  obtain ⟨hw1, hw2, hw3⟩ := hw
  set n := h.next with hn
  set h3 : Heap :=
    { headerAt := fun x => if x = n then h.headerAt p.headerRef else h.headerAt x,
      urlAt := fun x => if x = n + 1 then resolveEmptyRef (h.urlAt p.urlRef) else h.urlAt x,
      httpClientAt := fun x => if x = n + 2 then h.httpClientAt p.httpClientRef
        else h.httpClientAt x,
      next := n + 3 } with hh3
  set c0 : HClient :=
    { headerRef := n, urlRef := n + 1, httpClientRef := n + 2,
      timeout := p.timeout, hasEncoder := p.hasEncoder, hasDecoder := p.hasDecoder } with hc0
  have hstep : hderive h p opts = applyHOptions h3 c0 opts := by
    unfold hderive
    rfl
  obtain ⟨f1, f2, f3, f4, f5, f6, f7, f8⟩ := applyHOptions_frame opts h3 c0
  have hph : (hderive h p opts).1.headerAt p.headerRef = h.headerAt p.headerRef := by
    rw [hstep, f1 p.headerRef (by simp [hc0]; omega)]
    simp [hh3]
  have hpu : (hderive h p opts).1.urlAt p.urlRef = h.urlAt p.urlRef := by
    rw [hstep, f2 p.urlRef (by simp [hh3]; omega)]
    simp [hh3]
    omega
  have hpc : (hderive h p opts).1.httpClientAt p.httpClientRef
      = h.httpClientAt p.httpClientRef := by
    rw [hstep, f3 p.httpClientRef (by simp [hc0]; omega)]
    simp [hh3]
  refine ⟨?_, ?_, ?_⟩
  · unfold hview
    rw [hph, hpu, hpc]
  · obtain ⟨g1, g2, g3, _g4, _g5, _g6, _g7, _g8⟩ :=
      applyHOptions_frame opts2 (hderive h p opts).1 p
    have hdh : (hderive h p opts).2.headerRef = n := by
      rw [hstep, f5]
    have hdc : (hderive h p opts).2.httpClientRef = n + 2 := by
      rw [hstep, f6]
    have hdu : (hderive h p opts).2.urlRef < (hderive h p opts).1.next := by
      rw [hstep]
      exact f7 (by simp [hc0, hh3])
    unfold hview
    rw [g1 _ (by rw [hdh]; omega), g2 _ hdu, g3 _ (by rw [hdc]; omega)]
  · have hdc : (hderive h p opts).2.httpClientRef = n + 2 := by
      rw [hstep, f6]
    have htr : ((hderive h p opts).1.httpClientAt (hderive h p opts).2.httpClientRef).transportRef
        = (h.httpClientAt p.httpClientRef).transportRef := by
      rw [hstep]
      rw [f8]
      simp [hh3, hc0]
    rw [htr, hpc]

/-- The empty heap the concrete heap examples start from. -/
def emptyHeap : Heap :=
  ⟨fun _ => [], fun _ => {}, fun _ => ⟨0, false⟩, 0⟩

/-- The heap after building one client with hnew from the empty heap. -/
def rootHeap : Heap :=
  (hnew emptyHeap []).1

/-- The client built by hnew from the empty heap. -/
def rootHClient : HClient :=
  (hnew emptyHeap []).2

/-- Witness for C8: a parent built by hnew from the empty heap, a child
derived with a header option, and a further header mutation of the parent,
checked concretely: the view of the parent is untouched by the
derivation. -/
theorem derive_isolation_witness :
    refsBelow rootHClient rootHeap.next
    ∧ hview (hderive rootHeap rootHClient [.setHeader "X-Child" "1"]).1 rootHClient
      = hview rootHeap rootHClient := by
  constructor
  · exact ⟨by decide, by decide, by decide⟩
  · exact (derive_isolation rootHeap rootHClient
      [.setHeader "X-Child" "1"] [.setHeader "X-Parent" "2"]
      ⟨by decide, by decide, by decide⟩).1

end Fourten
